import Mathlib

/-!
# The interactive loop of the libtcod template (`src/main.cpp`)

A shallow embedding of the four functions of `main.cpp`:

* `get_data_dir`   : the upward search for the `data` directory,
* `SDL_AppInit`    : start-up (console 80x40, cursor at the centre),
* `SDL_AppIterate` : the per-frame render,
* `SDL_AppEvent`   : the per-event input handler.

The globals `g_console`, `g_context`, `player_x`, `player_y` become the fields of
`AppState`, threaded explicitly through every callback.
-/

namespace TcodTemplate

/-! ## C++ `int` -/

/-- Smallest value of a 32-bit `int`. -/
def INT_MIN : Int := -2147483648

/-- Largest value of a 32-bit `int`. -/
def INT_MAX : Int := 2147483647

/-- The value is representable as a 32-bit `int`. -/
def IntRange (z : Int) : Prop := INT_MIN ≤ z ∧ z ≤ INT_MAX

instance (z : Int) : Decidable (IntRange z) := by
  unfold IntRange; infer_instance

/-- Reduction of a mathematical integer to a 32-bit two's complement `int`.
`player_x` and `player_y` are `int`, and the handler never clamps them. A `+=`
or `-=` whose result leaves the range overflows: undefined behaviour by the
C++ standard, wrap-around in the code the usual compilers emit for a global
`int`, which is what this function gives. Statements that assume the result
representable (`IntRange`) do not depend on that choice. -/
def int_wrap (z : Int) : Int := (z + 2147483648) % 4294967296 - 2147483648

/-- C++ `a += b` on `int`. -/
def int_add (a b : Int) : Int := int_wrap (a + b)

/-- C++ `a -= b` on `int`. -/
def int_sub (a b : Int) : Int := int_wrap (a - b)

/-! ## SDL values used by the callbacks -/

/-- The outcomes a callback reports to the SDL driver. -/
inductive SDL_AppResult
  | SDL_APP_CONTINUE
  | SDL_APP_SUCCESS
  | SDL_APP_FAILURE
  deriving DecidableEq, Repr

/-- Key codes: the twenty-seven codes named in the `switch` of `SDL_AppEvent`
(pairwise distinct, being `case` labels of one `switch`) and every other code. -/
inductive SDL_Keycode
  | SDLK_LEFT | SDLK_H | SDLK_KP_4
  | SDLK_RIGHT | SDLK_L | SDLK_KP_6
  | SDLK_UP | SDLK_K | SDLK_KP_8
  | SDLK_DOWN | SDLK_J | SDLK_KP_2
  | SDLK_HOME | SDLK_Y | SDLK_KP_7
  | SDLK_PAGEUP | SDLK_U | SDLK_KP_9
  | SDLK_END | SDLK_B | SDLK_KP_1
  | SDLK_PAGEDOWN | SDLK_N | SDLK_KP_3
  | SDLK_PERIOD | SDLK_CLEAR | SDLK_KP_5
  | other (code : Nat)
  deriving DecidableEq, Repr

/-- Event types: the two the handler names and every other type. -/
inductive SDL_EventType
  | SDL_EVENT_KEY_DOWN
  | SDL_EVENT_QUIT
  | other (code : Nat)
  deriving DecidableEq, Repr

/-- The fields of `SDL_Event` the handler reads: `event->type` and
`event->key.key` (the latter is read for key-press events only). -/
structure SDL_Event where
  type : SDL_EventType
  key : SDL_Keycode
  deriving DecidableEq, Repr

/-! ## libtcod values used by the callbacks -/

/-- The type `tcod::ColorRGB`: three 8-bit channels. -/
structure ColorRGB where
  r : Nat
  g : Nat
  b : Nat
  deriving DecidableEq, Repr

/-- The type `TCOD_ColorRGBA`: four 8-bit channels. -/
structure ColorRGBA where
  r : Nat
  g : Nat
  b : Nat
  a : Nat
  deriving DecidableEq, Repr

/-- The type `TCOD_ConsoleTile`: a code point with foreground and background colour. -/
structure TCOD_ConsoleTile where
  ch : Nat
  fg : ColorRGBA
  bg : ColorRGBA
  deriving DecidableEq, Repr

/-- The type `tcod::Console`: width, height and the tiles in row-major order
(`tiles[w * y + x]` is the cell in column `x`, row `y`). -/
structure Console where
  w : Nat
  h : Nat
  tiles : List TCOD_ConsoleTile
  deriving DecidableEq, Repr

/-- The part of `tcod::Context` the program can observe: the frame last
handed to `present`, if any. -/
structure Context where
  frame : Option Console
  deriving DecidableEq, Repr

/-- The globals of `main.cpp`. -/
structure AppState where
  g_console : Console
  g_context : Context
  player_x : Int
  player_y : Int
  deriving DecidableEq, Repr

/-! ## `SDL_AppEvent` -/

/-- Handle events (`SDL_AppEvent`, main.cpp lines 42-100). -/
def SDL_AppEvent (s : AppState) (event : SDL_Event) : AppState × SDL_AppResult :=
  match event.type with
  | .SDL_EVENT_KEY_DOWN =>
    match event.key with
    | .SDLK_LEFT | .SDLK_H | .SDLK_KP_4 =>
      ({ s with player_x := int_sub s.player_x 1 }, .SDL_APP_CONTINUE)
    | .SDLK_RIGHT | .SDLK_L | .SDLK_KP_6 =>
      ({ s with player_x := int_add s.player_x 1 }, .SDL_APP_CONTINUE)
    | .SDLK_UP | .SDLK_K | .SDLK_KP_8 =>
      ({ s with player_y := int_sub s.player_y 1 }, .SDL_APP_CONTINUE)
    | .SDLK_DOWN | .SDLK_J | .SDLK_KP_2 =>
      ({ s with player_y := int_add s.player_y 1 }, .SDL_APP_CONTINUE)
    | .SDLK_HOME | .SDLK_Y | .SDLK_KP_7 =>
      ({ s with player_x := int_sub s.player_x 1, player_y := int_sub s.player_y 1 },
        .SDL_APP_CONTINUE)
    | .SDLK_PAGEUP | .SDLK_U | .SDLK_KP_9 =>
      ({ s with player_x := int_add s.player_x 1, player_y := int_sub s.player_y 1 },
        .SDL_APP_CONTINUE)
    | .SDLK_END | .SDLK_B | .SDLK_KP_1 =>
      ({ s with player_x := int_sub s.player_x 1, player_y := int_add s.player_y 1 },
        .SDL_APP_CONTINUE)
    | .SDLK_PAGEDOWN | .SDLK_N | .SDLK_KP_3 =>
      ({ s with player_x := int_add s.player_x 1, player_y := int_add s.player_y 1 },
        .SDL_APP_CONTINUE)
    | .SDLK_PERIOD | .SDLK_CLEAR | .SDLK_KP_5 => (s, .SDL_APP_CONTINUE)
    | .other _ => (s, .SDL_APP_CONTINUE)
  | .SDL_EVENT_QUIT => (s, .SDL_APP_SUCCESS)
  | .other _ => (s, .SDL_APP_CONTINUE)

/-- A key-press event for the given key. -/
def keyDown (key : SDL_Keycode) : SDL_Event := ⟨.SDL_EVENT_KEY_DOWN, key⟩

/-- The quit event (its `key` member is never read). -/
def quitEvent : SDL_Event := ⟨.SDL_EVENT_QUIT, .other 0⟩

/-- The direction table in the words of the specification: the vector each
key stands for, the zero vector for every key outside the eight directions. -/
def keyVector : SDL_Keycode → Int × Int
  | .SDLK_LEFT | .SDLK_H | .SDLK_KP_4 => (-1, 0)
  | .SDLK_RIGHT | .SDLK_L | .SDLK_KP_6 => (1, 0)
  | .SDLK_UP | .SDLK_K | .SDLK_KP_8 => (0, -1)
  | .SDLK_DOWN | .SDLK_J | .SDLK_KP_2 => (0, 1)
  | .SDLK_HOME | .SDLK_Y | .SDLK_KP_7 => (-1, -1)
  | .SDLK_PAGEUP | .SDLK_U | .SDLK_KP_9 => (1, -1)
  | .SDLK_END | .SDLK_B | .SDLK_KP_1 => (-1, 1)
  | .SDLK_PAGEDOWN | .SDLK_N | .SDLK_KP_3 => (1, 1)
  | _ => (0, 0)

/-- The driver's event pump: events are handed to `SDL_AppEvent` one by one
for as long as the handler answers `SDL_APP_CONTINUE`. -/
def runEvents (s : AppState) : List SDL_Event → AppState
  | [] => s
  | e :: es =>
    match SDL_AppEvent s e with
    | (s1, .SDL_APP_CONTINUE) => runEvents s1 es
    | (s1, _) => s1

/-- A run of key-press events, one per key of the list. -/
def pressKeys (s : AppState) (keys : List SDL_Keycode) : AppState :=
  runEvents s (keys.map keyDown)

/-- Sum of the x components of the table vectors of a key sequence. -/
def dxSum (keys : List SDL_Keycode) : Int := (keys.map (fun k => (keyVector k).1)).sum

/-- Sum of the y components of the table vectors of a key sequence. -/
def dySum (keys : List SDL_Keycode) : Int := (keys.map (fun k => (keyVector k).2)).sum

/-! ## The console operations `SDL_AppIterate` calls

These are libtcod functions; `main.cpp` only calls them. -/

/-- The constant `WHITE` of main.cpp line 23. -/
def WHITE : ColorRGB := ⟨255, 255, 255⟩

/-- Modelled from the spec: the tile `Console::clear()` fills the surface with
("Clears the entire surface to blank"); libtcod's default argument of `clear`
is a space, white on black, both opaque. -/
def defaultTile : TCOD_ConsoleTile := ⟨0x20, ⟨255, 255, 255, 255⟩, ⟨0, 0, 0, 255⟩⟩

/-- Modelled from the spec: `tcod::Console{w, h}` of libtcod, a surface of
`w * h` blank tiles. -/
def Console.new (w h : Nat) : Console := ⟨w, h, List.replicate (w * h) defaultTile⟩

/-- Modelled from the spec: `Console::clear` of libtcod ("Clears the entire
surface to blank"): every tile is assigned the given tile. -/
def Console.clear (c : Console) (tile : TCOD_ConsoleTile) : Console :=
  { c with tiles := c.tiles.map (fun _ => tile) }

/-- Modelled from the spec: `Console::in_bounds` of libtcod ("Cursor
Position lies within surface bounds"): `0 <= x < w` and `0 <= y < h`. -/
def Console.in_bounds (c : Console) (x y : Int) : Bool :=
  decide (0 ≤ x ∧ x < (c.w : Int) ∧ 0 ≤ y ∧ y < (c.h : Int))

/-- Row-major position of cell `(x, y)` in `tiles`. -/
def Console.index (c : Console) (x y : Int) : Nat := c.w * y.toNat + x.toNat

/-- Modelled from the spec: `Console::at` of libtcod, the tile at `(x, y)`;
`none` stands for the `std::out_of_range` it throws outside the surface. -/
def Console.at (c : Console) (x y : Int) : Option TCOD_ConsoleTile :=
  if c.in_bounds x y then c.tiles[c.index x y]? else none

/-- The exception a render can raise: the `std::out_of_range` of `Console::at`. -/
inductive RenderError
  | out_of_range
  deriving DecidableEq, Repr

/-- The assignment `console.at({x, y}).ch = ch` (main.cpp line 36): the
character of one tile is replaced, its colours are kept; where `Console::at`
throws, the assignment throws. -/
def Console.set_ch (c : Console) (x y : Int) (ch : Nat) : Except RenderError Console :=
  match c.at x y with
  | some t => .ok { c with tiles := c.tiles.set (c.index x y) { t with ch := ch } }
  | none => .error .out_of_range

/-- One printed code point: the tile inside the surface gets the character,
the foreground when one is given, the background when one is given; a
position outside the surface is skipped. -/
def Console.put (c : Console) (x y : Int) (ch : Nat) (fg bg : Option ColorRGB) : Console :=
  match c.at x y with
  | some t =>
    let fg1 : ColorRGBA :=
      match fg with
      | some f => ⟨f.r, f.g, f.b, 255⟩
      | none => t.fg
    let bg1 : ColorRGBA :=
      match bg with
      | some b => ⟨b.r, b.g, b.b, 255⟩
      | none => t.bg
    { c with tiles := c.tiles.set (c.index x y) ⟨ch, fg1, bg1⟩ }
  | none => c

/-- Modelled from the spec: `tcod::print` of libtcod for a one-line string
without control characters ("Writes a fixed greeting string at the top-left
cell, in a fixed foreground color, with no background tint"): the code points
go left to right from `(x, y)`. -/
def tcod.print (c : Console) (x y : Int) (str : List Char) (fg bg : Option ColorRGB) :
    Console :=
  match str with
  | [] => c
  | ch :: rest => tcod.print (c.put x y ch.toNat fg bg) (x + 1) y rest fg bg

/-- Modelled from the spec: `Context::present` of libtcod ("Presents the
surface to the display"): the console becomes the frame on display. -/
def Context.present (_ctx : Context) (c : Console) : Context := ⟨some c⟩

/-! ## `SDL_AppIterate` -/

/-- The greeting of main.cpp line 34. -/
def greeting : List Char := "Hello World".toList

/-- The guarded draw of the marker (main.cpp lines 35-37): inside the surface
the character of the cell at `(x, y)` becomes '@', outside nothing is done. -/
def draw_marker (c : Console) (x y : Int) : Except RenderError Console :=
  if c.in_bounds x y then c.set_ch x y (Char.toNat '@') else .ok c

/-- Called every frame (`SDL_AppIterate`, main.cpp lines 32-40). An exception
leaves the callback as `Except.error`; otherwise the globals after the frame
and the returned `SDL_APP_CONTINUE`. -/
def SDL_AppIterate (s : AppState) : Except RenderError (AppState × SDL_AppResult) :=
  let c1 := s.g_console.clear defaultTile
  let c2 := tcod.print c1 0 0 greeting (some WHITE) none
  match draw_marker c2 s.player_x s.player_y with
  | .error e => .error e
  | .ok c3 =>
    .ok ({ s with g_console := c3, g_context := s.g_context.present c3 }, .SDL_APP_CONTINUE)

/-- The surface a frame starts from: cleared, then the greeting printed at
the top-left cell. -/
def greetingSurface (c : Console) : Console :=
  tcod.print (c.clear defaultTile) 0 0 greeting (some WHITE) none

/-- A state with an 80x40 console and the cursor at `(x, y)`, nothing
presented yet. -/
def stateAt (x y : Int) : AppState := ⟨Console.new 80 40, ⟨none⟩, x, y⟩

/-- The tile `tcod::print` leaves on a cell holding `d` for the code point `ch`
printed with foreground `fg` and no background. -/
def printedTile (fg : ColorRGB) (d : TCOD_ConsoleTile) (ch : Char) : TCOD_ConsoleTile :=
  ⟨ch.toNat, ⟨fg.r, fg.g, fg.b, 255⟩, d.bg⟩

/-- The eleven tiles of the greeting on a cleared surface. -/
def greetingRow : List TCOD_ConsoleTile := greeting.map (printedTile WHITE defaultTile)

/-- The 80x40 surface in the words of the specification: blank everywhere,
the greeting written from cell (0, 0). -/
def expectedSurface : Console := ⟨80, 40, greetingRow ++ List.replicate 3189 defaultTile⟩

/-! ## `get_data_dir` -/

/-- A `std::filesystem::path` as the sequence of its components. -/
abbrev Path := List String

/-- Modelled from the spec: the state of the file system `get_data_dir`
queries, which is outside `main.cpp`. `entries` lists what exists besides the
root directory, each entry by its components below the root; `cwd` is the
working directory, located the same way. Every entry is taken to be a
directory. -/
structure FileSystem where
  entries : List (List String)
  cwd : List String
  deriving DecidableEq, Repr

/-- Something exists at the location (the root, `[]`, always does). -/
def FileSystem.present (fs : FileSystem) (loc : List String) : Bool :=
  decide (loc = [] ∨ loc ∈ fs.entries)

/-- Resolution of a path from a location, component by component: `.` stays,
`..` steps to the parent and stays at the root, a name steps into the child.
Every step needs its starting location to exist. -/
def FileSystem.walk (fs : FileSystem) (loc : List String) : Path → Option (List String)
  | [] => if fs.present loc then some loc else none
  | c :: rest =>
    if !fs.present loc then none
    else if c = "." then fs.walk loc rest
    else if c = ".." then fs.walk loc.dropLast rest
    else fs.walk (loc ++ [c]) rest

/-- Modelled from the spec: `std::filesystem::exists` on a path relative to
the working directory. -/
def filesystem_exists (fs : FileSystem) (p : Path) : Bool := (fs.walk fs.cwd p).isSome

/-- The `while` loop of `get_data_dir` (main.cpp lines 13-19) from a given
value of `root_directory`; each test of the loop condition costs one unit of
fuel, `none` is fuel exhausted, `Except.error` the thrown `std::runtime_error`. -/
def get_data_dir.loop (fs : FileSystem) : Nat → Path → Option (Except String Path)
  | 0, _ => none
  | fuel + 1, root_directory =>
    if !filesystem_exists fs (root_directory ++ ["data"]) then
      let root_directory := root_directory ++ [".."]
      if !filesystem_exists fs root_directory then
        some (.error "Could not find the data directory.")
      else get_data_dir.loop fs fuel root_directory
    else some (.ok (root_directory ++ ["data"]))

/-- Return the data directory (`get_data_dir`, main.cpp lines 11-21).
`root_directory` is a function-local `static` that begins at `.`; the function
is called once, from `SDL_AppInit`. -/
def get_data_dir (fs : FileSystem) (fuel : Nat) : Option (Except String Path) :=
  get_data_dir.loop fs fuel ["."]

/-- The ancestor of a location `k` levels up (the root is its own parent). -/
def ancestor (loc : List String) : Nat → List String
  | 0 => loc
  | k + 1 => ancestor loc.dropLast k

/-- The value of `root_directory` after `k` turns of the loop: `.` followed by
`k` times `..`. -/
def dotPath (k : Nat) : Path := "." :: List.replicate k ".."

/-! ## `SDL_AppInit` -/

/-- The ways start-up fails: the `std::runtime_error` thrown by `get_data_dir`,
libtcod failing to load the tilesheet, libtcod failing to create the context. -/
inductive InitError
  | runtime_error (what : String)
  | tilesheet
  | context
  deriving DecidableEq, Repr

/-- Modelled from the spec: what start-up meets outside `main.cpp`: the file
system, whether `tcod::load_tilesheet` loads the file at a path, and whether
the rendering backend creates a context. -/
structure Host where
  fs : FileSystem
  load_tilesheet : Path → Bool
  context_opens : Bool

/-- Main entry point (`SDL_AppInit`, main.cpp lines 102-122). The result is
`none` when `get_data_dir` runs out of fuel, an `InitError` for an exception,
otherwise the globals as start-up leaves them and `SDL_APP_CONTINUE`. -/
def SDL_AppInit (host : Host) (fuel : Nat) :
    Option (Except InitError (AppState × SDL_AppResult)) :=
  match get_data_dir host.fs fuel with
  | none => none
  | some (.error what) => some (.error (.runtime_error what))
  | some (.ok data_dir) =>
    if !host.load_tilesheet (data_dir ++ ["dejavu16x16_gs_tc.png"]) then
      some (.error .tilesheet)
    else
      let g_console := Console.new 80 40
      let player_x := Int.tdiv g_console.w 2
      let player_y := Int.tdiv g_console.h 2
      if !host.context_opens then some (.error .context)
      else some (.ok (⟨g_console, ⟨none⟩, player_x, player_y⟩, .SDL_APP_CONTINUE))

/-- A file system holding only the root directory, which is the working
directory. -/
def rootOnly : FileSystem := ⟨[], []⟩

/-- A host whose working directory `/proj/build` lies one level below the
directory `/proj` that holds `data`; tilesheet and context are available. -/
def sampleHost : Host :=
  ⟨⟨[["proj"], ["proj", "build"], ["proj", "data"]], ["proj", "build"]⟩,
    fun _ => true, true⟩

/-! ## Theorems -/

/-! ### Arithmetic of `int` -/

theorem int_wrap_of_range {z : Int} (h : IntRange z) : int_wrap z = z := by
  unfold IntRange INT_MIN INT_MAX at h
  unfold int_wrap
  omega

theorem int_wrap_range (z : Int) : IntRange (int_wrap z) := by
  unfold IntRange INT_MIN INT_MAX int_wrap
  omega

theorem int_wrap_add_left (a b : Int) : int_wrap (int_wrap a + b) = int_wrap (a + b) := by
  unfold int_wrap
  omega

/-! ### The input handler -/

/-- On a key press the handler adds the key's table vector in `int` arithmetic,
to both coordinates, and answers continue. -/
theorem SDL_AppEvent_keyDown (s : AppState) (key : SDL_Keycode)
    (hx : IntRange s.player_x) (hy : IntRange s.player_y) :
    SDL_AppEvent s (keyDown key) =
      ({ s with player_x := int_wrap (s.player_x + (keyVector key).1),
                player_y := int_wrap (s.player_y + (keyVector key).2) },
        .SDL_APP_CONTINUE) := by
  have h0x : int_wrap (s.player_x + 0) = s.player_x := by
    rw [Int.add_zero]; exact int_wrap_of_range hx
  have h0y : int_wrap (s.player_y + 0) = s.player_y := by
    rw [Int.add_zero]; exact int_wrap_of_range hy
  cases key <;>
    simp only [SDL_AppEvent, keyDown, keyVector, int_add, int_sub, h0x, h0y, Int.sub_eq_add_neg]

/-- A key press never stops the event pump. -/
theorem pressKeys_cons (s : AppState) (key : SDL_Keycode) (keys : List SDL_Keycode) :
    pressKeys s (key :: keys) = pressKeys (SDL_AppEvent s (keyDown key)).1 keys := by
  have h : (SDL_AppEvent s (keyDown key)).2 = .SDL_APP_CONTINUE := by
    cases key <;> rfl
  unfold pressKeys
  rw [List.map_cons, runEvents]
  split
  · next s1 heq => rw [heq]
  · next s1 r hne heq =>
    rw [heq] at h
    exact absurd h hne

/-- The cursor after a run of key presses, in `int` arithmetic: the start
plus the sum of the table vectors, reduced to 32 bits; nothing else changes. -/
theorem pressKeys_eq (keys : List SDL_Keycode) (s : AppState)
    (hx : IntRange s.player_x) (hy : IntRange s.player_y) :
    pressKeys s keys =
      { s with player_x := int_wrap (s.player_x + dxSum keys),
               player_y := int_wrap (s.player_y + dySum keys) } := by
  induction keys generalizing s with
  | nil =>
    simp only [pressKeys, List.map_nil, runEvents, dxSum, dySum, List.sum_nil, Int.add_zero,
      int_wrap_of_range hx, int_wrap_of_range hy]
  | cons key keys ih =>
    rw [pressKeys_cons, SDL_AppEvent_keyDown s key hx hy]
    rw [ih _ (int_wrap_range _) (int_wrap_range _)]
    simp only [dxSum, dySum, List.map_cons, List.sum_cons, int_wrap_add_left, Int.add_assoc]

theorem dxSum_perm {k1 k2 : List SDL_Keycode} (h : k1.Perm k2) : dxSum k1 = dxSum k2 :=
  (h.map _).sum_eq

theorem dySum_perm {k1 k2 : List SDL_Keycode} (h : k1.Perm k2) : dySum k1 = dySum k2 :=
  (h.map _).sum_eq

/-- Claim C1, as amended: for every cursor `(x, y)` and every key-press event
whose table vector `(dx, dy)` keeps `x + dx` and `y + dy` representable as
`int`, `SDL_AppEvent` (HandleInput) adds exactly that vector of the fixed
table `keyVector` to the cursor, changes nothing else and answers continue.
The three bindings of a direction share one row of the table. -/
theorem SDL_AppEvent_adds_keyVector (s : AppState) (key : SDL_Keycode)
    (hx : IntRange (s.player_x + (keyVector key).1))
    (hy : IntRange (s.player_y + (keyVector key).2)) :
    SDL_AppEvent s (keyDown key) =
      ({ s with player_x := s.player_x + (keyVector key).1,
                player_y := s.player_y + (keyVector key).2 },
        .SDL_APP_CONTINUE) := by
  have h0 : ∀ z : Int, z + 0 = z := Int.add_zero
  cases key <;>
    simp only [keyVector, h0] at hx hy <;>
    simp only [SDL_AppEvent, keyDown, keyVector, int_add, int_sub, h0, Int.sub_eq_add_neg,
      int_wrap_of_range hx, int_wrap_of_range hy]

/-- Home, Y and Keypad-7 pressed once from (40, 20) each give the cursor (39, 19). -/
theorem SDL_AppEvent_adds_keyVector_witness :
    IntRange ((stateAt 40 20).player_x + (keyVector .SDLK_HOME).1) ∧
    IntRange ((stateAt 40 20).player_y + (keyVector .SDLK_HOME).2) ∧
    SDL_AppEvent (stateAt 40 20) (keyDown .SDLK_HOME) = (stateAt 39 19, .SDL_APP_CONTINUE) ∧
    SDL_AppEvent (stateAt 40 20) (keyDown .SDLK_Y) = (stateAt 39 19, .SDL_APP_CONTINUE) ∧
    SDL_AppEvent (stateAt 40 20) (keyDown .SDLK_KP_7) = (stateAt 39 19, .SDL_APP_CONTINUE) :=
  ⟨by decide, by decide,
    SDL_AppEvent_adds_keyVector (stateAt 40 20) .SDLK_HOME (by decide) (by decide),
    SDL_AppEvent_adds_keyVector (stateAt 40 20) .SDLK_Y (by decide) (by decide),
    SDL_AppEvent_adds_keyVector (stateAt 40 20) .SDLK_KP_7 (by decide) (by decide)⟩

/-- Claim C1 as stated fails at the edge of `int`: with the cursor at
`(INT_MAX, 20)` the key RIGHT, whose table vector is `(1, 0)`, does not give
`x + 1`; the stored `int` wraps to `INT_MIN`. -/
theorem keyDown_right_overflows :
    IntRange (stateAt 2147483647 20).player_x ∧
    IntRange (stateAt 2147483647 20).player_y ∧
    keyVector .SDLK_RIGHT = (1, 0) ∧
    (SDL_AppEvent (stateAt 2147483647 20) (keyDown .SDLK_RIGHT)).1.player_x = -2147483648 ∧
    (SDL_AppEvent (stateAt 2147483647 20) (keyDown .SDLK_RIGHT)).1.player_x ≠
      (stateAt 2147483647 20).player_x + (keyVector .SDLK_RIGHT).1 := by
  refine ⟨by decide, by decide, rfl, by decide, by decide⟩

/-- Claim C2: a key press of the keypad centre key (KP_5) or of a no-op key
(PERIOD, CLEAR) leaves the whole state, the cursor included, as it was and
answers continue. -/
theorem SDL_AppEvent_noop_keys (s : AppState) :
    SDL_AppEvent s (keyDown .SDLK_KP_5) = (s, .SDL_APP_CONTINUE) ∧
    SDL_AppEvent s (keyDown .SDLK_PERIOD) = (s, .SDL_APP_CONTINUE) ∧
    SDL_AppEvent s (keyDown .SDLK_CLEAR) = (s, .SDL_APP_CONTINUE) :=
  ⟨rfl, rfl, rfl⟩

/-- Claim C3: `SDL_AppEvent` answers `SDL_APP_SUCCESS` exactly on a quit
event; a quit event does so from every state (and leaves it untouched), every
key press and every other event type answers `SDL_APP_CONTINUE`. -/
theorem SDL_AppEvent_success_iff_quit (s : AppState) (event : SDL_Event) :
    ((SDL_AppEvent s event).2 = .SDL_APP_SUCCESS ↔ event.type = .SDL_EVENT_QUIT) ∧
    (event.type = .SDL_EVENT_QUIT → SDL_AppEvent s event = (s, .SDL_APP_SUCCESS)) ∧
    SDL_AppEvent s quitEvent = (s, .SDL_APP_SUCCESS) ∧
    (∀ key : SDL_Keycode, (SDL_AppEvent s (keyDown key)).2 = .SDL_APP_CONTINUE) ∧
    (event.type ≠ .SDL_EVENT_QUIT → (SDL_AppEvent s event).2 = .SDL_APP_CONTINUE) := by
  refine ⟨?_, ?_, rfl, fun key => by cases key <;> rfl, ?_⟩ <;>
    (obtain ⟨ty, key⟩ := event
     cases ty <;> cases key <;> simp [SDL_AppEvent])

/-- Claim C4: an event that is neither a key press nor a quit leaves the whole
state (cursor, console, context) as it was and answers continue. -/
theorem SDL_AppEvent_other_event (s : AppState) (event : SDL_Event)
    (hk : event.type ≠ .SDL_EVENT_KEY_DOWN) (hq : event.type ≠ .SDL_EVENT_QUIT) :
    SDL_AppEvent s event = (s, .SDL_APP_CONTINUE) := by
  obtain ⟨ty, key⟩ := event
  cases ty
  · exact absurd rfl hk
  · exact absurd rfl hq
  · rfl

/-- An event of another type (code 1024) on the cursor (40, 20). -/
theorem SDL_AppEvent_other_event_witness :
    SDL_AppEvent (stateAt 40 20) ⟨.other 1024, .SDLK_LEFT⟩ =
      (stateAt 40 20, .SDL_APP_CONTINUE) :=
  SDL_AppEvent_other_event (stateAt 40 20) ⟨.other 1024, .SDLK_LEFT⟩
    (by simp) (by simp)

/-- Claim C10: key presses commute. From a cursor of `int`s, a sequence of
key presses ends at the start plus the component-wise sum of the table vectors
(exactly so whenever that sum is representable, that is, with the coordinates
taken as unbounded integers; reduced to 32 bits in general), every
permutation of the sequence ends in the same state, and a key followed by one
of the opposite vector restores the state. -/
theorem pressKeys_commute (s : AppState) (keys : List SDL_Keycode)
    (hx : IntRange s.player_x) (hy : IntRange s.player_y) :
    (IntRange (s.player_x + dxSum keys) → IntRange (s.player_y + dySum keys) →
      pressKeys s keys =
        { s with player_x := s.player_x + dxSum keys,
                 player_y := s.player_y + dySum keys }) ∧
    pressKeys s keys =
      { s with player_x := int_wrap (s.player_x + dxSum keys),
               player_y := int_wrap (s.player_y + dySum keys) } ∧
    (∀ keys2 : List SDL_Keycode, keys2.Perm keys → pressKeys s keys2 = pressKeys s keys) ∧
    (∀ k1 k2 : SDL_Keycode,
      (keyVector k1).1 + (keyVector k2).1 = 0 → (keyVector k1).2 + (keyVector k2).2 = 0 →
      pressKeys s [k1, k2] = s) := by
  refine ⟨?_, pressKeys_eq keys s hx hy, ?_, ?_⟩
  · intro h1 h2
    rw [pressKeys_eq keys s hx hy, int_wrap_of_range h1, int_wrap_of_range h2]
  · intro keys2 hp
    rw [pressKeys_eq keys s hx hy, pressKeys_eq keys2 s hx hy, dxSum_perm hp, dySum_perm hp]
  · intro k1 k2 h1 h2
    have e1 : dxSum [k1, k2] = 0 := by simp [dxSum, h1]
    have e2 : dySum [k1, k2] = 0 := by simp [dySum, h2]
    rw [pressKeys_eq _ s hx hy, e1, e2, Int.add_zero, Int.add_zero,
      int_wrap_of_range hx, int_wrap_of_range hy]

/-- From (40, 20): left, up, right, down and Home, PageDown return to (40, 20),
[up, left, left] ends where [left, up, left] does, at (38, 19). -/
theorem pressKeys_commute_witness :
    IntRange (stateAt 40 20).player_x ∧ IntRange (stateAt 40 20).player_y ∧
    pressKeys (stateAt 40 20) [.SDLK_LEFT, .SDLK_UP, .SDLK_LEFT] = stateAt 38 19 ∧
    pressKeys (stateAt 40 20) [.SDLK_UP, .SDLK_LEFT, .SDLK_LEFT] =
      pressKeys (stateAt 40 20) [.SDLK_LEFT, .SDLK_UP, .SDLK_LEFT] ∧
    pressKeys (stateAt 40 20) [.SDLK_LEFT, .SDLK_RIGHT] = stateAt 40 20 ∧
    pressKeys (stateAt 40 20) [.SDLK_UP, .SDLK_DOWN] = stateAt 40 20 ∧
    pressKeys (stateAt 40 20) [.SDLK_HOME, .SDLK_PAGEDOWN] = stateAt 40 20 ∧
    pressKeys (stateAt 40 20) [.SDLK_PAGEUP, .SDLK_END] = stateAt 40 20 :=
  have h := pressKeys_commute (stateAt 40 20) [.SDLK_LEFT, .SDLK_UP, .SDLK_LEFT]
    (by decide) (by decide)
  ⟨by decide, by decide, h.1 (by decide) (by decide),
    h.2.2.1 _ (by decide),
    h.2.2.2 .SDLK_LEFT .SDLK_RIGHT (by decide) (by decide),
    h.2.2.2 .SDLK_UP .SDLK_DOWN (by decide) (by decide),
    h.2.2.2 .SDLK_HOME .SDLK_PAGEDOWN (by decide) (by decide),
    h.2.2.2 .SDLK_PAGEUP .SDLK_END (by decide) (by decide)⟩

/-! ### The render tick -/

/-- One code point printed at the end of the written part `P` of row 0. -/
theorem Console.put_row (w h : Nat) (P : List TCOD_ConsoleTile) (d : TCOD_ConsoleTile)
    (m : Nat) (ch : Char) (fg : ColorRGB) (hw : P.length < w) (hh : 0 < h) :
    Console.put ⟨w, h, P ++ List.replicate (m + 1) d⟩ (P.length : Int) 0 ch.toNat
        (some fg) none =
      ⟨w, h, (P ++ [printedTile fg d ch]) ++ List.replicate m d⟩ := by
  have hb : Console.in_bounds ⟨w, h, P ++ List.replicate (m + 1) d⟩ (P.length : Int) 0 =
      true := by
    simp only [Console.in_bounds, decide_eq_true_eq]
    omega
  have hi : Console.index ⟨w, h, P ++ List.replicate (m + 1) d⟩ (P.length : Int) 0 =
      P.length := by
    simp [Console.index]
  have hget : (P ++ List.replicate (m + 1) d)[P.length]? = some d := by
    rw [List.getElem?_append_right (Nat.le_refl _)]
    simp [List.replicate_succ]
  have hset : (P ++ List.replicate (m + 1) d).set P.length (printedTile fg d ch) =
      (P ++ [printedTile fg d ch]) ++ List.replicate m d := by
    rw [List.set_append_right _ _ (Nat.le_refl _)]
    simp [List.replicate_succ]
  simp only [Console.put, Console.at, hb, hi, if_true, hget]
  rw [← hset]
  rfl

/-- A string that fits in row 0 printed after the written part `P`: its tiles
follow `P`, the tiles behind it stay. -/
theorem tcod.print_row (str : List Char) (w h : Nat) (P : List TCOD_ConsoleTile)
    (d : TCOD_ConsoleTile) (m : Nat) (fg : ColorRGB)
    (hw : P.length + str.length ≤ w) (hh : 0 < h) :
    tcod.print ⟨w, h, P ++ List.replicate (str.length + m) d⟩ (P.length : Int) 0 str
        (some fg) none =
      ⟨w, h, P ++ str.map (printedTile fg d) ++ List.replicate m d⟩ := by
  induction str generalizing P with
  | nil => simp [tcod.print]
  | cons ch rest ih =>
    have e : (ch :: rest).length + m = (rest.length + m) + 1 := by simp; omega
    rw [tcod.print, e, Console.put_row w h P d _ ch fg (by simp at hw; omega) hh]
    have := ih (P ++ [printedTile fg d ch]) (by simp at hw ⊢; omega)
    simp only [List.length_append, List.length_singleton, Nat.cast_add, Nat.cast_one] at this
    rw [this]
    simp

theorem Console.clear_eq (c : Console) (t : TCOD_ConsoleTile) :
    c.clear t = ⟨c.w, c.h, List.replicate c.tiles.length t⟩ := by
  simp [Console.clear, List.map_const']

theorem Console.put_dims (c : Console) (x y : Int) (ch : Nat) (fg bg : Option ColorRGB) :
    (c.put x y ch fg bg).w = c.w ∧ (c.put x y ch fg bg).h = c.h ∧
      (c.put x y ch fg bg).tiles.length = c.tiles.length := by
  unfold Console.put
  split <;> simp

theorem tcod.print_dims (str : List Char) (c : Console) (x y : Int) (fg bg : Option ColorRGB) :
    (tcod.print c x y str fg bg).w = c.w ∧ (tcod.print c x y str fg bg).h = c.h ∧
      (tcod.print c x y str fg bg).tiles.length = c.tiles.length := by
  induction str generalizing c x with
  | nil => simp [tcod.print]
  | cons ch rest ih =>
    rw [tcod.print]
    obtain ⟨h1, h2, h3⟩ := ih (c.put x y ch.toNat fg bg) (x + 1)
    obtain ⟨g1, g2, g3⟩ := Console.put_dims c x y ch.toNat fg bg
    exact ⟨h1.trans g1, h2.trans g2, h3.trans g3⟩

theorem greetingSurface_dims (c : Console) :
    (greetingSurface c).w = c.w ∧ (greetingSurface c).h = c.h ∧
      (greetingSurface c).tiles.length = c.tiles.length := by
  obtain ⟨h1, h2, h3⟩ := tcod.print_dims greeting (c.clear defaultTile) 0 0 (some WHITE) none
  exact ⟨h1, h2, h3.trans (by simp [Console.clear])⟩

theorem greetingSurface_eq (c : Console) (hw : c.w = 80) (hh : c.h = 40)
    (hlen : c.tiles.length = 3200) : greetingSurface c = expectedSurface := by
  unfold greetingSurface
  rw [Console.clear_eq, hw, hh, hlen]
  have h := tcod.print_row greeting 80 40 [] defaultTile 3189 WHITE (by decide) (by decide)
  exact h

theorem expectedSurface_tile (t : TCOD_ConsoleTile) (ht : t ∈ expectedSurface.tiles) :
    t.fg = defaultTile.fg ∧ t.bg = defaultTile.bg ∧ t.ch ≠ Char.toNat '@' := by
  simp only [expectedSurface, List.mem_append, greetingRow, List.mem_map,
    List.mem_replicate] at ht
  rcases ht with ⟨ch, hch, rfl⟩ | ⟨_, rfl⟩
  · refine ⟨rfl, rfl, ?_⟩
    revert ch
    decide
  · exact ⟨rfl, rfl, by decide⟩

theorem expectedSurface_length : expectedSurface.tiles.length = 3200 := by
  unfold expectedSurface greetingRow
  rw [List.length_append, List.length_replicate, List.length_map]
  rfl

theorem Console.at_set (L : List TCOD_ConsoleTile) (k : Nat) (v : TCOD_ConsoleTile) (i j : Int)
    (hk : k < L.length) :
    Console.at ⟨80, 40, L.set k v⟩ i j =
      if 0 ≤ i ∧ i < 80 ∧ 0 ≤ j ∧ j < 40 then
        (if k = 80 * j.toNat + i.toNat then some v else Console.at ⟨80, 40, L⟩ i j)
      else none := by
  unfold Console.at Console.in_bounds Console.index
  by_cases hb : 0 ≤ i ∧ i < 80 ∧ 0 ≤ j ∧ j < 40
  · simp [hb, List.getElem?_set, hk]
  · simp [hb]

/-! ### The data directory -/

theorem dotPath_succ (k : Nat) : dotPath k ++ [".."] = dotPath (k + 1) := by
  simp only [dotPath, List.cons_append, List.replicate_succ']

theorem FileSystem.walk_dotdots (fs : FileSystem) (k : Nat) (loc : List String) (tail : Path)
    (h : ∀ j, j < k → fs.present (ancestor loc j) = true) :
    fs.walk loc (List.replicate k ".." ++ tail) = fs.walk (ancestor loc k) tail := by
  induction k generalizing loc with
  | zero => rfl
  | succ k ih =>
    have h0 : fs.present loc = true := h 0 (Nat.succ_pos k)
    have hne : ¬ (".." = ".") := by decide
    rw [List.replicate_succ, List.cons_append, FileSystem.walk]
    simp only [h0, hne, Bool.not_true, Bool.false_eq_true, if_false, if_true]
    rw [ih loc.dropLast (fun j hj => h (j + 1) (Nat.succ_lt_succ hj))]
    rfl

theorem filesystem_exists_data (fs : FileSystem) (k : Nat)
    (h : ∀ j, j ≤ k → fs.present (ancestor fs.cwd j) = true) :
    filesystem_exists fs (dotPath k ++ ["data"]) = fs.present (ancestor fs.cwd k ++ ["data"]) := by
  have h0 : fs.present fs.cwd = true := h 0 (Nat.zero_le k)
  have hk : fs.present (ancestor fs.cwd k) = true := h k (Nat.le_refl k)
  have hne1 : ¬ ("data" = ".") := by decide
  have hne2 : ¬ ("data" = "..") := by decide
  unfold filesystem_exists dotPath
  rw [List.cons_append, FileSystem.walk]
  simp only [h0, Bool.not_true, Bool.false_eq_true, if_false, if_true]
  rw [FileSystem.walk_dotdots fs k fs.cwd _ (fun j hj => h j (Nat.le_of_lt hj))]
  simp only [FileSystem.walk, hk, hne1, hne2, Bool.not_true, Bool.false_eq_true, if_false]
  cases fs.present (ancestor fs.cwd k ++ ["data"]) <;> rfl

theorem filesystem_exists_dotPath (fs : FileSystem) (k : Nat)
    (h : ∀ j, j ≤ k → fs.present (ancestor fs.cwd j) = true) :
    filesystem_exists fs (dotPath k) = true := by
  have h0 : fs.present fs.cwd = true := h 0 (Nat.zero_le k)
  have hk : fs.present (ancestor fs.cwd k) = true := h k (Nat.le_refl k)
  unfold filesystem_exists dotPath
  rw [FileSystem.walk]
  simp only [h0, Bool.not_true, Bool.false_eq_true, if_false, if_true]
  have := FileSystem.walk_dotdots fs k fs.cwd [] (fun j hj => h j (Nat.le_of_lt hj))
  rw [List.append_nil] at this
  rw [this, FileSystem.walk, hk]
  rfl

/-- Where every ancestor of the working directory exists and none from level
`k` up holds `data`, the loop started at level `k` uses up any amount of fuel:
it neither returns nor throws. -/
theorem get_data_dir.loop_diverges (fs : FileSystem)
    (hanc : ∀ j, fs.present (ancestor fs.cwd j) = true) (fuel : Nat) (k : Nat)
    (hno : ∀ j, k ≤ j → fs.present (ancestor fs.cwd j ++ ["data"]) = false) :
    get_data_dir.loop fs fuel (dotPath k) = none := by
  induction fuel generalizing k with
  | zero => rfl
  | succ fuel ih =>
    rw [get_data_dir.loop]
    simp only [filesystem_exists_data fs k (fun j _ => hanc j), hno k (Nat.le_refl k),
      dotPath_succ, filesystem_exists_dotPath fs (k + 1) (fun j _ => hanc j),
      Bool.not_true, Bool.not_false, Bool.false_eq_true, if_false, if_true]
    exact ih (k + 1) (fun j hj => hno j (Nat.le_of_succ_le hj))

/-- Where the ancestors of the working directory up to level `k` exist, those
from level `i` to below `k` hold no `data` and the one at level `k` does, the
loop started at level `i` returns `data` under level `k` once fuel suffices. -/
theorem get_data_dir.loop_finds (fs : FileSystem) (k : Nat)
    (hanc : ∀ j, j ≤ k → fs.present (ancestor fs.cwd j) = true)
    (hyes : fs.present (ancestor fs.cwd k ++ ["data"]) = true) (d : Nat) (i : Nat) (hik : i + d = k)
    (hno : ∀ j, i ≤ j → j < k → fs.present (ancestor fs.cwd j ++ ["data"]) = false)
    (fuel : Nat) (hf : d < fuel) :
    get_data_dir.loop fs fuel (dotPath i) = some (.ok (dotPath k ++ ["data"])) := by
  induction d generalizing i fuel with
  | zero =>
    obtain ⟨f, rfl⟩ : ∃ f, fuel = f + 1 := ⟨fuel - 1, by omega⟩
    have : i = k := by omega
    subst this
    rw [get_data_dir.loop]
    simp only [filesystem_exists_data fs i hanc, hyes, Bool.not_true, Bool.false_eq_true,
      if_false]
  | succ d ih =>
    obtain ⟨f, rfl⟩ : ∃ f, fuel = f + 1 := ⟨fuel - 1, by omega⟩
    rw [get_data_dir.loop]
    simp only [filesystem_exists_data fs i (fun j hj => hanc j (by omega)),
      hno i (Nat.le_refl i) (by omega), dotPath_succ,
      filesystem_exists_dotPath fs (i + 1) (fun j hj => hanc j (by omega)),
      Bool.not_true, Bool.not_false, Bool.false_eq_true, if_false, if_true]
    exact ih (i + 1) (by omega) (fun j hj hjk => hno j (by omega) hjk) f (by omega)

theorem ancestor_nil (k : Nat) : ancestor [] k = [] := by
  induction k with
  | zero => rfl
  | succ k ih => exact ih

/-! ### Runs of one key -/

theorem dxSum_replicate (n : Nat) (key : SDL_Keycode) :
    dxSum (List.replicate n key) = n * (keyVector key).1 := by
  simp [dxSum, List.map_replicate, List.sum_replicate]

theorem dySum_replicate (n : Nat) (key : SDL_Keycode) :
    dySum (List.replicate n key) = n * (keyVector key).2 := by
  simp [dySum, List.map_replicate, List.sum_replicate]

/-- The state after `n` presses of one key, in `int` arithmetic. -/
theorem pressKeys_replicate (s : AppState) (key : SDL_Keycode) (n : Nat)
    (hx : IntRange s.player_x) (hy : IntRange s.player_y) :
    pressKeys s (List.replicate n key) =
      { s with player_x := int_wrap (s.player_x + n * (keyVector key).1),
               player_y := int_wrap (s.player_y + n * (keyVector key).2) } := by
  rw [pressKeys_eq _ s hx hy, dxSum_replicate, dySum_replicate]

/-! ### The guarded draw -/

theorem Console.set_ch_dims (c c2 : Console) (x y : Int) (ch : Nat)
    (h : c.set_ch x y ch = .ok c2) :
    c2.w = c.w ∧ c2.h = c.h ∧ c2.tiles.length = c.tiles.length := by
  unfold Console.set_ch at h
  split at h
  · cases h
    simp
  · cases h

/-- Outside the surface the unguarded assignment throws. -/
theorem Console.set_ch_outside (c : Console) (x y : Int) (ch : Nat)
    (h : c.in_bounds x y = false) : c.set_ch x y ch = .error .out_of_range := by
  simp [Console.set_ch, Console.at, h]

/-- Inside a surface that holds `w * h` tiles, `at` finds a tile. -/
theorem Console.at_inside (c : Console) (x y : Int) (hb : c.in_bounds x y = true)
    (hlen : c.tiles.length = c.w * c.h) : ∃ t, c.at x y = some t := by
  have hb2 := hb
  simp only [Console.in_bounds, decide_eq_true_eq] at hb2
  obtain ⟨hx0, hx1, hy0, hy1⟩ := hb2
  have hy : y.toNat + 1 ≤ c.h := by omega
  have hmul := Nat.mul_le_mul_left c.w hy
  rw [Nat.mul_add, Nat.mul_one] at hmul
  have hk : c.index x y < c.tiles.length := by
    rw [hlen, Console.index]
    omega
  exact ⟨c.tiles[c.index x y],
    by simp only [Console.at, hb, if_true, List.getElem?_eq_getElem hk]⟩

theorem draw_marker_outside (c : Console) (x y : Int) (h : c.in_bounds x y = false) :
    draw_marker c x y = .ok c := by
  simp [draw_marker, h]

theorem draw_marker_dims (c c2 : Console) (x y : Int) (h : draw_marker c x y = .ok c2) :
    c2.w = c.w ∧ c2.h = c.h ∧ c2.tiles.length = c.tiles.length := by
  unfold draw_marker at h
  split at h
  · exact Console.set_ch_dims c c2 x y _ h
  · cases h
    exact ⟨rfl, rfl, rfl⟩

/-- On a surface that holds `w * h` tiles the guarded draw does not throw. -/
theorem draw_marker_ok (c : Console) (x y : Int) (hlen : c.tiles.length = c.w * c.h) :
    ∃ c2, draw_marker c x y = .ok c2 := by
  cases hb : c.in_bounds x y
  · exact ⟨c, draw_marker_outside c x y hb⟩
  · obtain ⟨t, ht⟩ := Console.at_inside c x y hb hlen
    refine ⟨{ c with tiles := c.tiles.set (c.index x y) { t with ch := Char.toNat '@' } }, ?_⟩
    simp only [draw_marker, hb, if_true, Console.set_ch, ht]

/-! ### The render tick as a whole -/

theorem SDL_AppIterate_of_draw (s : AppState) (c3 : Console)
    (h : draw_marker (greetingSurface s.g_console) s.player_x s.player_y = .ok c3) :
    SDL_AppIterate s =
      .ok ({ s with g_console := c3, g_context := ⟨some c3⟩ }, .SDL_APP_CONTINUE) := by
  have h2 : draw_marker (tcod.print (s.g_console.clear defaultTile) 0 0 greeting (some WHITE)
      none) s.player_x s.player_y = .ok c3 := h
  simp only [SDL_AppIterate, h2, Context.present]

theorem SDL_AppIterate_ok_inv (s : AppState) (r : AppState × SDL_AppResult)
    (h : SDL_AppIterate s = .ok r) :
    ∃ c3, draw_marker (greetingSurface s.g_console) s.player_x s.player_y = .ok c3 ∧
      r = ({ s with g_console := c3, g_context := ⟨some c3⟩ }, .SDL_APP_CONTINUE) := by
  cases hd : draw_marker (greetingSurface s.g_console) s.player_x s.player_y with
  | error e =>
    have h2 : draw_marker (tcod.print (s.g_console.clear defaultTile) 0 0 greeting
        (some WHITE) none) s.player_x s.player_y = .error e := hd
    simp only [SDL_AppIterate, h2] at h
    cases h
  | ok c3 =>
    rw [SDL_AppIterate_of_draw s c3 hd] at h
    cases h
    exact ⟨c3, rfl, rfl⟩

theorem greetingSurface_congr (c c2 : Console) (hw : c2.w = c.w) (hh : c2.h = c.h)
    (hlen : c2.tiles.length = c.tiles.length) : greetingSurface c2 = greetingSurface c := by
  unfold greetingSurface
  rw [Console.clear_eq, Console.clear_eq, hw, hh, hlen]

/-- With the cursor outside the surface the frame is the cleared surface with
the greeting, presented as such. -/
theorem SDL_AppIterate_outside (s : AppState)
    (hout : s.g_console.in_bounds s.player_x s.player_y = false) :
    SDL_AppIterate s =
      .ok ({ s with g_console := greetingSurface s.g_console,
                    g_context := ⟨some (greetingSurface s.g_console)⟩ },
        .SDL_APP_CONTINUE) := by
  obtain ⟨h1, h2, _⟩ := greetingSurface_dims s.g_console
  have hb : (greetingSurface s.g_console).in_bounds s.player_x s.player_y = false := by
    rw [← hout]; simp only [Console.in_bounds, h1, h2]
  exact SDL_AppIterate_of_draw s _ (draw_marker_outside _ _ _ hb)

/-- With the cursor inside an 80x40 surface the frame is `expectedSurface` with
the character of the tile at the cursor replaced by '@', presented as such. -/
theorem SDL_AppIterate_inside (s : AppState) (hw : s.g_console.w = 80) (hh : s.g_console.h = 40)
    (hlen : s.g_console.tiles.length = 3200)
    (hx0 : 0 ≤ s.player_x) (hx1 : s.player_x < 80)
    (hy0 : 0 ≤ s.player_y) (hy1 : s.player_y < 40) :
    ∃ t, expectedSurface.tiles[80 * s.player_y.toNat + s.player_x.toNat]? = some t ∧
      t.fg = defaultTile.fg ∧ t.bg = defaultTile.bg ∧
      SDL_AppIterate s =
        .ok ({ s with
                g_console := ⟨80, 40, expectedSurface.tiles.set
                  (80 * s.player_y.toNat + s.player_x.toNat) ⟨Char.toNat '@', t.fg, t.bg⟩⟩,
                g_context := ⟨some ⟨80, 40, expectedSurface.tiles.set
                  (80 * s.player_y.toNat + s.player_x.toNat)
                  ⟨Char.toNat '@', t.fg, t.bg⟩⟩⟩ },
          .SDL_APP_CONTINUE) := by
  have hk : 80 * s.player_y.toNat + s.player_x.toNat < expectedSurface.tiles.length := by
    rw [expectedSurface_length]; omega
  refine ⟨expectedSurface.tiles[80 * s.player_y.toNat + s.player_x.toNat], ?_, ?_, ?_, ?_⟩
  · exact List.getElem?_eq_getElem hk
  · exact (expectedSurface_tile _ (List.getElem_mem _)).1
  · exact (expectedSurface_tile _ (List.getElem_mem _)).2.1
  · have hb : expectedSurface.in_bounds s.player_x s.player_y = true := by
      simp only [Console.in_bounds, expectedSurface, decide_eq_true_eq]
      omega
    apply SDL_AppIterate_of_draw
    rw [greetingSurface_eq _ hw hh hlen]
    simp only [draw_marker, hb, if_true, Console.set_ch, Console.at]
    rw [show expectedSurface.index s.player_x s.player_y =
      80 * s.player_y.toNat + s.player_x.toNat from rfl, List.getElem?_eq_getElem hk]
    rfl

/-! ### The claims on the render tick -/

/-- Claim C5: on an 80x40 surface of any prior content, with the cursor inside
the surface, `SDL_AppIterate` returns continue, keeps the cursor and presents
the surface it leaves; on that surface the cell at the cursor holds '@' in the
colours of the cleared state; every other cell is the cell of the cleared
surface with "Hello World" written from (0, 0), which is `expectedSurface`;
and the surface is that one with the character of the one tile at the cursor
replaced. -/
theorem SDL_AppIterate_draws_marker (s : AppState)
    (hw : s.g_console.w = 80) (hh : s.g_console.h = 40)
    (hlen : s.g_console.tiles.length = 3200)
    (hx0 : 0 ≤ s.player_x) (hx1 : s.player_x < 80)
    (hy0 : 0 ≤ s.player_y) (hy1 : s.player_y < 40) :
    ∃ s1 : AppState,
      SDL_AppIterate s = .ok (s1, .SDL_APP_CONTINUE) ∧
      s1.g_context.frame = some s1.g_console ∧
      s1.player_x = s.player_x ∧ s1.player_y = s.player_y ∧
      s1.g_console.at s.player_x s.player_y =
        some ⟨Char.toNat '@', defaultTile.fg, defaultTile.bg⟩ ∧
      (∀ i j : Int, (i, j) ≠ (s.player_x, s.player_y) →
        s1.g_console.at i j = (greetingSurface s.g_console).at i j) ∧
      greetingSurface s.g_console = expectedSurface ∧
      (∃ t, (greetingSurface s.g_console).at s.player_x s.player_y = some t ∧
        s1.g_console =
          { greetingSurface s.g_console with
            tiles := (greetingSurface s.g_console).tiles.set
              ((greetingSurface s.g_console).index s.player_x s.player_y)
              { t with ch := Char.toNat '@' } }) := by
  obtain ⟨t, hget, hfg, hbg, hit⟩ := SDL_AppIterate_inside s hw hh hlen hx0 hx1 hy0 hy1
  have hk : 80 * s.player_y.toNat + s.player_x.toNat < expectedSurface.tiles.length := by
    rw [expectedSurface_length]; omega
  have hin : 0 ≤ s.player_x ∧ s.player_x < 80 ∧ 0 ≤ s.player_y ∧ s.player_y < 40 :=
    ⟨hx0, hx1, hy0, hy1⟩
  rw [greetingSurface_eq _ hw hh hlen]
  refine ⟨_, hit, rfl, rfl, rfl, ?_, ?_, rfl, t, ?_, ?_⟩
  · show Console.at ⟨80, 40, _⟩ s.player_x s.player_y = _
    rw [Console.at_set _ _ _ _ _ hk, if_pos hin, if_pos rfl, hfg, hbg]
  · intro i j hne
    show Console.at ⟨80, 40, _⟩ i j = _
    rw [Console.at_set _ _ _ _ _ hk]
    by_cases hb : 0 ≤ i ∧ i < 80 ∧ 0 ≤ j ∧ j < 40
    · have hidx : ¬ (80 * s.player_y.toNat + s.player_x.toNat = 80 * j.toNat + i.toNat) := by
        intro h
        apply hne
        have h1 : i = s.player_x := by omega
        have h2 : j = s.player_y := by omega
        rw [h1, h2]
      rw [if_pos hb, if_neg hidx]
      rfl
    · rw [if_neg hb]
      have : expectedSurface.in_bounds i j = false := by
        simp only [Console.in_bounds, expectedSurface, decide_eq_false_iff_not]
        exact hb
      simp only [Console.at, this]
      rfl
  · have hb : expectedSurface.in_bounds s.player_x s.player_y = true := by
      simp only [Console.in_bounds, expectedSurface, decide_eq_true_eq]
      exact hin
    simp only [Console.at, hb, if_true]
    exact hget
  · rfl

/-- The cursor (3, 0), on the greeting: the render returns continue, the third
`l` gives way to '@', the cell (4, 0) keeps its `o`, and the frame on display
is that surface. -/
theorem SDL_AppIterate_draws_marker_witness :
    ∃ s1 : AppState,
      SDL_AppIterate (stateAt 3 0) = .ok (s1, .SDL_APP_CONTINUE) ∧
      s1.g_context.frame = some s1.g_console ∧
      s1.g_console.at 3 0 = some ⟨Char.toNat '@', defaultTile.fg, defaultTile.bg⟩ ∧
      s1.g_console.at 4 0 = expectedSurface.at 4 0 :=
  have h := SDL_AppIterate_draws_marker (stateAt 3 0) rfl rfl
    (List.length_replicate _ _) (by decide) (by decide) (by decide) (by decide)
  h.elim fun s1 h1 =>
    ⟨s1, h1.1, h1.2.1, h1.2.2.2.2.1,
      (h1.2.2.2.2.2.1 4 0 (by decide)).trans
        (congrArg (fun c => Console.at c 4 0) h1.2.2.2.2.2.2.1)⟩

/-- Claim C6, as amended: from the cursor (40, 20), `n` presses of a "move
left" key, for `n` up to 2147483688 (= 2^31 + 40, while `40 - n` is an `int`),
give the cursor `(40 - n, 20)`, whose `x` is negative once `n > 40`; and for a
cursor outside an 80x40 surface `SDL_AppIterate` does not throw: it returns
continue, keeps the cursor, and leaves and presents the cleared surface with
the greeting, with no '@' on it. The guard is what keeps the draw from
throwing: the assignment of line 36 at that cursor raises `out_of_range`. -/
theorem move_left_then_render (s : AppState) (key : SDL_Keycode) (n : Nat) (s2 : AppState)
    (hkey : keyVector key = (-1, 0)) (hx : s.player_x = 40) (hy : s.player_y = 20)
    (hn : n ≤ 2147483688)
    (hw : s2.g_console.w = 80) (hh : s2.g_console.h = 40)
    (hlen : s2.g_console.tiles.length = 3200)
    (hout : ¬ (0 ≤ s2.player_x ∧ s2.player_x < 80 ∧
      0 ≤ s2.player_y ∧ s2.player_y < 40)) :
    pressKeys s (List.replicate n key) = { s with player_x := 40 - n, player_y := 20 } ∧
    (40 < n → (pressKeys s (List.replicate n key)).player_x < 0) ∧
    (∃ s1 : AppState,
      SDL_AppIterate s2 = .ok (s1, .SDL_APP_CONTINUE) ∧
      s1 = { s2 with g_console := expectedSurface, g_context := ⟨some expectedSurface⟩ } ∧
      s1.g_console = greetingSurface s2.g_console ∧
      s1.g_context.frame = some s1.g_console ∧
      (∀ t ∈ s1.g_console.tiles, t.ch ≠ Char.toNat '@') ∧
      s1.player_x = s2.player_x ∧ s1.player_y = s2.player_y) ∧
    (greetingSurface s2.g_console).set_ch s2.player_x s2.player_y (Char.toNat '@') =
      .error .out_of_range := by
  have hrx : IntRange s.player_x := by rw [hx]; decide
  have hry : IntRange s.player_y := by rw [hy]; decide
  have hrun : pressKeys s (List.replicate n key) =
      { s with player_x := 40 - n, player_y := 20 } := by
    rw [pressKeys_replicate s key n hrx hry, hkey, hx, hy]
    have e1 : int_wrap (40 + (n : Int) * (-1 : Int)) = 40 - n := by
      unfold int_wrap; omega
    have e2 : int_wrap (20 + (n : Int) * (0 : Int)) = 20 := by
      unfold int_wrap; omega
    simp only [e1, e2]
  have hb : s2.g_console.in_bounds s2.player_x s2.player_y = false := by
    simp only [Console.in_bounds, hw, hh, decide_eq_false_iff_not]
    exact hout
  have hg := greetingSurface_eq _ hw hh hlen
  have hit := SDL_AppIterate_outside s2 hb
  rw [hg] at hit
  have hb2 : expectedSurface.in_bounds s2.player_x s2.player_y = false := by
    simp only [Console.in_bounds, expectedSurface, decide_eq_false_iff_not]
    exact hout
  have hthrow := Console.set_ch_outside expectedSurface s2.player_x s2.player_y
    (Char.toNat '@') hb2
  rw [hg]
  refine ⟨hrun, ?_, ?_, hthrow⟩
  · intro h40
    rw [hrun]
    show (40 : Int) - n < 0
    omega
  · exact ⟨{ s2 with g_console := expectedSurface, g_context := ⟨some expectedSurface⟩ },
      hit, rfl, rfl, rfl, fun t ht => (expectedSurface_tile t ht).2.2, rfl, rfl⟩

/-- Forty-one presses of LEFT from (40, 20) give (-1, 20); a render with that
cursor returns continue and leaves the greeting surface, where the unguarded
assignment throws. -/
theorem move_left_then_render_witness :
    pressKeys (stateAt 40 20) (List.replicate 41 .SDLK_LEFT) = stateAt (-1) 20 ∧
    (pressKeys (stateAt 40 20) (List.replicate 41 .SDLK_LEFT)).player_x < 0 ∧
    (∃ s1 : AppState, SDL_AppIterate (stateAt (-1) 20) = .ok (s1, .SDL_APP_CONTINUE) ∧
      s1.g_console = expectedSurface) ∧
    (greetingSurface (stateAt (-1) 20).g_console).set_ch (-1) 20 (Char.toNat '@') =
      .error .out_of_range :=
  have h := move_left_then_render (stateAt 40 20) .SDLK_LEFT 41 (stateAt (-1) 20)
    rfl rfl rfl (by decide) rfl rfl (List.length_replicate _ _) (by decide)
  ⟨h.1, h.2.1 (by decide),
    h.2.2.1.elim fun s1 h1 => ⟨s1, h1.1, congrArg AppState.g_console h1.2.1⟩, h.2.2.2⟩

/-- Claim C6 as stated fails for large `n`: after 2147483689 (= 2^31 + 41)
presses of LEFT from (40, 20) the stored `x` is 2147483647, which is neither
`40 - n` nor negative. -/
theorem move_left_wraps :
    (pressKeys (stateAt 40 20) (List.replicate 2147483689 .SDLK_LEFT)).player_x =
      2147483647 ∧
    (pressKeys (stateAt 40 20) (List.replicate 2147483689 .SDLK_LEFT)).player_x ≠
      40 - 2147483689 ∧
    ¬ ((pressKeys (stateAt 40 20) (List.replicate 2147483689 .SDLK_LEFT)).player_x < 0) := by
  have h : (pressKeys (stateAt 40 20) (List.replicate 2147483689 .SDLK_LEFT)).player_x =
      2147483647 := by
    rw [pressKeys_replicate (stateAt 40 20) .SDLK_LEFT 2147483689 (by decide) (by decide)]
    show int_wrap (40 + ((2147483689 : Nat) : Int) * (-1 : Int)) = 2147483647
    decide
  rw [h]
  exact ⟨rfl, by decide, by decide⟩

/-! ### Idempotence -/

/-- The outcome of a render depends on the prior console through its
dimensions and the number of its tiles only. -/
theorem SDL_AppIterate_console_congr (s s2 : AppState)
    (hw : s2.g_console.w = s.g_console.w) (hh : s2.g_console.h = s.g_console.h)
    (hlen : s2.g_console.tiles.length = s.g_console.tiles.length)
    (hx : s2.player_x = s.player_x) (hy : s2.player_y = s.player_y) :
    (SDL_AppIterate s2).map (fun r => (r.1.g_console, r.1.g_context, r.2)) =
      (SDL_AppIterate s).map (fun r => (r.1.g_console, r.1.g_context, r.2)) := by
  have hg := greetingSurface_congr s.g_console s2.g_console hw hh hlen
  cases hd : draw_marker (greetingSurface s.g_console) s.player_x s.player_y with
  | error e =>
    have h1 : draw_marker (tcod.print (s.g_console.clear defaultTile) 0 0 greeting
        (some WHITE) none) s.player_x s.player_y = .error e := hd
    have h2 : draw_marker (tcod.print (s2.g_console.clear defaultTile) 0 0 greeting
        (some WHITE) none) s2.player_x s2.player_y = .error e := by
      rw [hx, hy]
      show draw_marker (greetingSurface s2.g_console) s.player_x s.player_y = _
      rw [hg, hd]
    simp only [SDL_AppIterate, h1, h2]
  | ok c3 =>
    have hd2 : draw_marker (greetingSurface s2.g_console) s2.player_x s2.player_y = .ok c3 := by
      rw [hg, hx, hy, hd]
    rw [SDL_AppIterate_of_draw s c3 hd, SDL_AppIterate_of_draw s2 c3 hd2]
    rfl

/-- Claim C7: `SDL_AppIterate` is idempotent. On a console that holds its
`w * h` tiles the call returns continue with some state, and a second call right
after the first returns the very same state, surface and presented frame
included; in general, whenever a call returns, the next call returns the
same; and the outcome (surface, presented frame, result) is determined by the
cursor for a surface of given dimensions, whatever the console held before. -/
theorem SDL_AppIterate_idempotent (s : AppState) :
    (∀ r, SDL_AppIterate s = .ok r → SDL_AppIterate r.1 = .ok r) ∧
    (s.g_console.tiles.length = s.g_console.w * s.g_console.h →
      ∃ s1 : AppState, SDL_AppIterate s = .ok (s1, .SDL_APP_CONTINUE) ∧
        SDL_AppIterate s1 = .ok (s1, .SDL_APP_CONTINUE) ∧
        s1.g_context.frame = some s1.g_console) ∧
    (∀ s2 : AppState, s2.g_console.w = s.g_console.w → s2.g_console.h = s.g_console.h →
      s2.g_console.tiles.length = s.g_console.tiles.length →
      s2.player_x = s.player_x → s2.player_y = s.player_y →
      (SDL_AppIterate s2).map (fun r => (r.1.g_console, r.1.g_context, r.2)) =
        (SDL_AppIterate s).map (fun r => (r.1.g_console, r.1.g_context, r.2))) := by
  have hidem : ∀ r, SDL_AppIterate s = .ok r → SDL_AppIterate r.1 = .ok r := by
    intro r hr
    obtain ⟨c3, hd, rfl⟩ := SDL_AppIterate_ok_inv s r hr
    obtain ⟨d1, d2, d3⟩ := draw_marker_dims _ c3 _ _ hd
    obtain ⟨g1, g2, g3⟩ := greetingSurface_dims s.g_console
    have hg : greetingSurface c3 = greetingSurface s.g_console :=
      greetingSurface_congr s.g_console c3 (d1.trans g1) (d2.trans g2) (d3.trans g3)
    have hd2 : draw_marker (greetingSurface c3) s.player_x s.player_y = .ok c3 := by
      rw [hg, hd]
    exact SDL_AppIterate_of_draw { s with g_console := c3, g_context := ⟨some c3⟩ } c3 hd2
  refine ⟨hidem, ?_,
    fun s2 hw hh hlen hx hy => SDL_AppIterate_console_congr s s2 hw hh hlen hx hy⟩
  intro hwf
  obtain ⟨g1, g2, g3⟩ := greetingSurface_dims s.g_console
  obtain ⟨c3, hd⟩ := draw_marker_ok (greetingSurface s.g_console) s.player_x s.player_y
    (by rw [g1, g2, g3, hwf])
  have h1 := SDL_AppIterate_of_draw s c3 hd
  have h2 : SDL_AppIterate ({ s with g_console := c3, g_context := ⟨some c3⟩ } : AppState) =
      .ok ({ s with g_console := c3, g_context := ⟨some c3⟩ }, .SDL_APP_CONTINUE) :=
    hidem ({ s with g_console := c3, g_context := ⟨some c3⟩ }, .SDL_APP_CONTINUE) h1
  exact ⟨{ s with g_console := c3, g_context := ⟨some c3⟩ }, h1, h2, rfl⟩

/-- Two renders in a row with the cursor at (40, 17) on an 80x40 surface: both
return continue with one and the same state. -/
theorem SDL_AppIterate_idempotent_witness :
    ∃ s1 : AppState, SDL_AppIterate (stateAt 40 17) = .ok (s1, .SDL_APP_CONTINUE) ∧
      SDL_AppIterate s1 = .ok (s1, .SDL_APP_CONTINUE) ∧
      s1.g_context.frame = some s1.g_console :=
  (SDL_AppIterate_idempotent (stateAt 40 17)).2.1 (List.length_replicate _ _)

/-! ### Start-up, three steps up, one render -/

theorem get_data_dir_finds (fs : FileSystem) (k fuel : Nat)
    (hanc : ∀ j, j ≤ k → fs.present (ancestor fs.cwd j) = true)
    (hno : ∀ j, j < k → fs.present (ancestor fs.cwd j ++ ["data"]) = false)
    (hyes : fs.present (ancestor fs.cwd k ++ ["data"]) = true) (hfuel : k < fuel) :
    get_data_dir fs fuel = some (.ok (dotPath k ++ ["data"])) :=
  get_data_dir.loop_finds fs k hanc hyes k 0 (Nat.zero_add k) (fun j _ hj => hno j hj) fuel hfuel

/-- The greeting stands in row 0 of `expectedSurface` with '@' set in a row
below it. -/
theorem marked_row0 (k : Nat) (v : TCOD_ConsoleTile) (hk : k < expectedSurface.tiles.length)
    (hk80 : 80 ≤ k) (i : Nat) (hi : i < greeting.length) :
    Console.at ⟨80, 40, expectedSurface.tiles.set k v⟩ (i : Int) 0 =
      some (printedTile WHITE defaultTile greeting[i]) := by
  have h11 : greeting.length = 11 := rfl
  have hin : 0 ≤ (i : Int) ∧ (i : Int) < 80 ∧ 0 ≤ (0 : Int) ∧ (0 : Int) < 40 := by omega
  have hidx : ¬ (k = 80 * (0 : Int).toNat + (i : Int).toNat) := by
    omega
  rw [Console.at_set _ _ _ _ _ hk, if_pos hin, if_neg hidx]
  have hb : Console.in_bounds ⟨80, 40, expectedSurface.tiles⟩ (i : Int) 0 = true := by
    simp only [Console.in_bounds, decide_eq_true_eq]
    exact hin
  have hix : Console.index ⟨80, 40, expectedSurface.tiles⟩ (i : Int) 0 = i := by
    simp [Console.index]
  have hrow : i < greetingRow.length := by
    rw [greetingRow, List.length_map]; exact hi
  simp only [Console.at, hb, hix, if_true]
  show (greetingRow ++ List.replicate 3189 defaultTile)[i]? = _
  rw [List.getElem?_append_left hrow, List.getElem?_eq_getElem hrow]
  simp [greetingRow]

/-- Claim C8, as amended: where the data directory is found (some ancestor `k`
levels up holds `data`, fuel suffices), the tilesheet loads and the context
opens, `SDL_AppInit` leaves a blank 80x40 surface and the cursor at its centre
(80/2, 40/2) = (40, 20) and answers continue; from there `n` presses of an
"up" key, for `n` up to 2147483668 (= 2^31 + 20, while `20 - n` is an `int`),
give the cursor `(40, 20 - n)`, three give (40, 17); and the next
`SDL_AppIterate` returns continue and presents a frame, the surface it leaves,
that shows '@' at column 40, row 17 and the eleven characters of
"Hello World" in row 0, columns 0 to 10. -/
theorem init_up_render (host : Host) (k fuel : Nat) (key : SDL_Keycode) (n : Nat)
    (hanc : ∀ j, j ≤ k → host.fs.present (ancestor host.fs.cwd j) = true)
    (hno : ∀ j, j < k → host.fs.present (ancestor host.fs.cwd j ++ ["data"]) = false)
    (hyes : host.fs.present (ancestor host.fs.cwd k ++ ["data"]) = true)
    (hfuel : k < fuel)
    (hload : host.load_tilesheet (dotPath k ++ ["data"] ++ ["dejavu16x16_gs_tc.png"]) = true)
    (hctx : host.context_opens = true)
    (hkey : keyVector key = (0, -1)) (hn : n ≤ 2147483668) :
    SDL_AppInit host fuel = some (.ok (stateAt 40 20, .SDL_APP_CONTINUE)) ∧
    (stateAt 40 20).g_console = ⟨80, 40, List.replicate 3200 defaultTile⟩ ∧
    pressKeys (stateAt 40 20) (List.replicate n key) = stateAt 40 (20 - n) ∧
    pressKeys (stateAt 40 20) [key, key, key] = stateAt 40 17 ∧
    (∃ (s1 : AppState) (frame : Console),
      SDL_AppIterate (stateAt 40 17) = .ok (s1, .SDL_APP_CONTINUE) ∧
      s1.g_context.frame = some frame ∧
      frame = s1.g_console ∧
      s1.player_x = 40 ∧ s1.player_y = 17 ∧
      frame.at 40 17 = some ⟨Char.toNat '@', defaultTile.fg, defaultTile.bg⟩ ∧
      (∀ (i : Nat) (hi : i < greeting.length),
        frame.at (i : Int) 0 = some (printedTile WHITE defaultTile greeting[i])) ∧
      s1.g_console.at 40 17 = some ⟨Char.toNat '@', defaultTile.fg, defaultTile.bg⟩ ∧
      (∀ (i : Nat) (hi : i < greeting.length),
        s1.g_console.at (i : Int) 0 = some (printedTile WHITE defaultTile greeting[i]))) := by
  have hrun : ∀ m : Nat, m ≤ 2147483668 →
      pressKeys (stateAt 40 20) (List.replicate m key) = stateAt 40 (20 - m) := by
    intro m hm
    rw [pressKeys_replicate (stateAt 40 20) key m (by decide) (by decide), hkey]
    have e1 : int_wrap ((stateAt 40 20).player_x + (m : Int) * (0 : Int)) = 40 := by
      show int_wrap (40 + (m : Int) * (0 : Int)) = 40
      unfold int_wrap; omega
    have e2 : int_wrap ((stateAt 40 20).player_y + (m : Int) * (-1 : Int)) = 20 - m := by
      show int_wrap (20 + (m : Int) * (-1 : Int)) = 20 - m
      unfold int_wrap; omega
    simp only [e1, e2]
    rfl
  have hlen : (stateAt 40 17).g_console.tiles.length = 3200 := List.length_replicate _ _
  refine ⟨?_, rfl, hrun n hn, hrun 3 (by decide), ?_⟩
  · unfold SDL_AppInit
    rw [get_data_dir_finds host.fs k fuel hanc hno hyes hfuel]
    simp only [hload, hctx, Bool.not_true, Bool.false_eq_true, if_false]
    rfl
  · obtain ⟨t, _, hfg, hbg, hit⟩ := SDL_AppIterate_inside (stateAt 40 17) rfl rfl hlen
      (by decide) (by decide) (by decide) (by decide)
    have hk : 80 * (stateAt 40 17).player_y.toNat + (stateAt 40 17).player_x.toNat <
        expectedSurface.tiles.length := by
      rw [expectedSurface_length]; decide
    have hat : Console.at ⟨80, 40, expectedSurface.tiles.set
        (80 * (stateAt 40 17).player_y.toNat + (stateAt 40 17).player_x.toNat)
        ⟨Char.toNat '@', t.fg, t.bg⟩⟩ 40 17 =
        some ⟨Char.toNat '@', defaultTile.fg, defaultTile.bg⟩ := by
      rw [hfg, hbg]
      exact (Console.at_set _ _ _ 40 17 hk).trans
        (by rw [if_pos (by decide), if_pos (by decide)])
    have hrow : ∀ (i : Nat) (hi : i < greeting.length),
        Console.at ⟨80, 40, expectedSurface.tiles.set
          (80 * (stateAt 40 17).player_y.toNat + (stateAt 40 17).player_x.toNat)
          ⟨Char.toNat '@', t.fg, t.bg⟩⟩ (i : Int) 0 =
        some (printedTile WHITE defaultTile greeting[i]) :=
      fun i hi => marked_row0 _ _ hk (by decide) i hi
    exact ⟨_, _, hit, rfl, rfl, rfl, rfl, hat, hrow, hat, hrow⟩

/-- With `data` one level above the working directory: start-up gives the
cursor (40, 20), three presses of UP give (40, 17), and the render returns
continue and presents a frame with '@' at (40, 17) and `H` at (0, 0). -/
theorem init_up_render_witness :
    SDL_AppInit sampleHost 2 = some (.ok (stateAt 40 20, .SDL_APP_CONTINUE)) ∧
    pressKeys (stateAt 40 20) [.SDLK_UP, .SDLK_UP, .SDLK_UP] = stateAt 40 17 ∧
    (∃ (s1 : AppState) (frame : Console),
      SDL_AppIterate (stateAt 40 17) = .ok (s1, .SDL_APP_CONTINUE) ∧
      s1.g_context.frame = some frame ∧
      frame.at 40 17 = some ⟨Char.toNat '@', defaultTile.fg, defaultTile.bg⟩ ∧
      frame.at 0 0 = some (printedTile WHITE defaultTile 'H')) :=
  have h := init_up_render sampleHost 1 2 .SDLK_UP 3 (by decide) (by decide) (by decide)
    (by decide) rfl rfl rfl (by decide)
  ⟨h.1, h.2.2.2.1,
    h.2.2.2.2.elim fun s1 h1 => h1.elim fun frame h2 =>
      ⟨s1, frame, h2.1, h2.2.1, h2.2.2.2.2.2.1, h2.2.2.2.2.2.2.1 0 (by decide)⟩⟩

/-- Claim C8 as stated fails for large `n`: after 2147483669 (= 2^31 + 21)
presses of UP from (40, 20) the stored `y` is 2147483647, not `20 - n`. -/
theorem move_up_wraps :
    (pressKeys (stateAt 40 20) (List.replicate 2147483669 .SDLK_UP)).player_y =
      2147483647 ∧
    (pressKeys (stateAt 40 20) (List.replicate 2147483669 .SDLK_UP)).player_y ≠
      20 - 2147483669 := by
  have h : (pressKeys (stateAt 40 20) (List.replicate 2147483669 .SDLK_UP)).player_y =
      2147483647 := by
    rw [pressKeys_replicate (stateAt 40 20) .SDLK_UP 2147483669 (by decide) (by decide)]
    show int_wrap (20 + ((2147483669 : Nat) : Int) * (-1 : Int)) = 2147483647
    decide
  rw [h]
  exact ⟨rfl, by decide⟩

/-! ### The claim on the data directory -/

/-- Where the working directory and all its ancestors exist and none of them
holds `data`, `get_data_dir` uses up any amount of fuel: `..` applied to the
root is the root, so `root_directory` always exists and the `throw` is never
reached. -/
theorem get_data_dir_diverges (fs : FileSystem)
    (hanc : ∀ j, fs.present (ancestor fs.cwd j) = true)
    (hno : ∀ j, fs.present (ancestor fs.cwd j ++ ["data"]) = false) (fuel : Nat) :
    get_data_dir fs fuel = none :=
  get_data_dir.loop_diverges fs hanc fuel 0 (fun j _ => hno j)

/-- The `throw` is reached when the working directory itself does not exist. -/
theorem get_data_dir_throws (fs : FileSystem) (h : fs.present fs.cwd = false) (fuel : Nat) :
    get_data_dir fs (fuel + 1) = some (.error "Could not find the data directory.") := by
  simp [get_data_dir, get_data_dir.loop, filesystem_exists, FileSystem.walk, h]

/-- Claim C9, at the failing input: on a file system that holds the root
directory only (working directory the root, no `data` anywhere) `get_data_dir`
never returns and never throws "Could not find the data directory.": with any
amount of fuel the loop is still running. -/
theorem get_data_dir_rootOnly (fuel : Nat) :
    get_data_dir rootOnly fuel = none ∧
    get_data_dir rootOnly fuel ≠ some (.error "Could not find the data directory.") := by
  have hanc : ∀ j, rootOnly.present (ancestor rootOnly.cwd j) = true := by
    intro j
    show rootOnly.present (ancestor [] j) = true
    rw [ancestor_nil]
    rfl
  have hno : ∀ j, rootOnly.present (ancestor rootOnly.cwd j ++ ["data"]) = false := by
    intro j
    show rootOnly.present (ancestor [] j ++ ["data"]) = false
    rw [ancestor_nil]
    rfl
  rw [get_data_dir_diverges rootOnly hanc hno fuel]
  exact ⟨rfl, by simp⟩

end TcodTemplate
